import Mathlib

/-!
# Verification of the beyond-shuffle pattern-mining core

Shallow embedding of the period/habit pattern-mining code of the repository
(`pattern_finder.py`, `pf_periods.py`, `pf_habits.py`, `pattern_processing.py`,
`constants.py`) together with proofs of the specified properties.

Modelling conventions:
* Python/NumPy floats are modelled as `Option ℚ`: `none` stands for NaN
  (pandas' "undefined"), `some q` for an ordinary value.  Decimal literals of
  the source are modelled as exact rationals.
* Arithmetic on such values propagates `none` the way IEEE NaN propagates.
* DataFrames are modelled as explicit lists of rows; a row is an association
  list from column name to value.  A column that is absent from a row's
  association list models a NaN cell, while column presence at the frame level
  is tracked by an explicit `cols` field where the source checks
  `col in df.columns`.
* Timestamps are modelled at day granularity as integers, matching the
  day-granular sliding window of `pf_periods.py`.
-/

namespace BeyondShuffle

/-! ## Constants (src/constants.py) -/

/-- Embedding of `STEP_SIZE_DAYS = 1` (constants.py line 35). -/
def STEP_SIZE_DAYS : Int := 1

/-- Embedding of `WINDOW_SIZE_DAYS = 4` (constants.py line 34). -/
def WINDOW_SIZE_DAYS : Int := 4

/-- Embedding of `PERIOD_MIN_DAYS = 2` (constants.py line 33). -/
def PERIOD_MIN_DAYS : Int := 2

/-- Embedding of `PERIOD_FEATURE_ZSCORE_THRESHOLD = 0.6` (constants.py line 36); this is the
relative-frequency anomaly threshold used by `detect_categorical_anomalies`. -/
def PERIOD_FEATURE_ZSCORE_THRESHOLD : ℚ := 3/5

/-- Embedding of `MIN_TRACKS_FOR_PLAYLIST = 15` (constants.py line 37). -/
def MIN_TRACKS_FOR_PLAYLIST : Nat := 15

/-- Embedding of `NUMERICAL_FEATURES_TO_CHECK` (constants.py lines 45-55). -/
def NUMERICAL_FEATURES_TO_CHECK : List String :=
  ["tempo", "speechiness", "liveness", "acousticness", "energy",
   "danceability", "loudness", "valence", "instrumentalness"]

/-- Embedding of `HABIT_MIN_WEEKS = 6` (constants.py line 60). -/
def HABIT_MIN_WEEKS : Nat := 6

/-- Embedding of `HABIT_MIN_STREAMS_PER_SLOT = 100` (constants.py line 61). -/
def HABIT_MIN_STREAMS_PER_SLOT : Nat := 100

/-- Embedding of `HABIT_FEATURE_ZSCORE_THRESHOLD = 0.8` (constants.py line 62). -/
def HABIT_FEATURE_ZSCORE_THRESHOLD : ℚ := 4/5

/-- Embedding of `HABIT_MIN_NUM_FEATURES = 3` (constants.py line 63). -/
def HABIT_MIN_NUM_FEATURES : Nat := 3

/-- Embedding of `HABIT_MAX_SLOTS_PER_SCHEMA = 3` (constants.py line 64). -/
def HABIT_MAX_SLOTS_PER_SCHEMA : Nat := 3

/-- Embedding of `HABIT_AUDIO_CLUSTER_K = 5` (constants.py line 68). -/
def HABIT_AUDIO_CLUSTER_K : Nat := 5

/-- Embedding of `HABIT_MIN_CLUSTER_SHARE = 0.6` (constants.py line 69). -/
def HABIT_MIN_CLUSTER_SHARE : ℚ := 3/5

/-- Embedding of `HABIT_MIN_CLUSTER_WEEKS = 6` (constants.py line 70). -/
def HABIT_MIN_CLUSTER_WEEKS : Nat := 6

/-- Embedding of `HABIT_BEHAVIORAL_FEATURES` (constants.py lines 73-78). -/
def HABIT_BEHAVIORAL_FEATURES : List String :=
  ["attention_span", "skipped", "session_length", "session_duration_min"]

/-- Embedding of `HABIT_BEHAVIORAL_ZSCORE_THRESHOLD = 0.5` (constants.py line 79). -/
def HABIT_BEHAVIORAL_ZSCORE_THRESHOLD : ℚ := 1/2

/-- Embedding of `CANDIDATE_SELECTION_WEIGHTS` (constants.py lines 26-30).
`pattern_processing.py` consumes these weights under the name `WEIGHTS`. -/
def WEIGHTS_count : ℚ := 1/2
def WEIGHTS_skip_rate : ℚ := 3/10
def WEIGHTS_attention_span : ℚ := 1/5

/-! ## NaN-propagating float model -/

/-- Subtraction on NaN-capable floats: NaN propagates. -/
def osub : Option ℚ → Option ℚ → Option ℚ
  | some a, some b => some (a - b)
  | _, _ => none

/-- Python truthiness of a float: `0.0` is falsy, every other float —
including NaN — is truthy. -/
def py_truthy : Option ℚ → Bool
  | none => true
  | some q => q ≠ 0

/-- Division on NaN-capable floats, made fallible: dividing by an actual zero
is a division fault (`Except.error`), while NaN operands propagate as NaN. -/
def checkedDiv (a b : Option ℚ) : Except String (Option ℚ) :=
  match b with
  | none => Except.ok none
  | some q => if q = 0 then Except.error "division by zero" else Except.ok (a.map (· / q))

/-- pandas mean of a column, skipping NaN cells: NaN iff no defined value. -/
def pmean (xs : List (Option ℚ)) : Option ℚ :=
  let v := xs.filterMap id
  if v.length = 0 then none else some (v.sum / v.length)

/-- pandas sample standard deviation of a column (ddof = 1), skipping NaN
cells, represented by its square (the sample variance): the source stores
`df[col].std()`; since the square root of a rational is irrational the
embedding keeps the variance, which is NaN, zero or positive exactly when the
standard deviation is. -/
def pvarSq (xs : List (Option ℚ)) : Option ℚ :=
  let v := xs.filterMap id
  if v.length ≤ 1 then none
  else
    let m := v.sum / v.length
    some ((v.map (fun x => (x - m) ^ 2)).sum / (v.length - 1))

/-! ## Slot z-scores (src/pf_habits.py, `compute_slot_feature_stats`) -/

/-- The `sigma` of `compute_slot_feature_stats` (pf_habits.py lines 156-160):
`overall.loc[feat, "std"] if feat in overall.index and overall.loc[feat, "std"]
not in (0, None) else 0.0`.  The feature is always in `overall.index` (the
table is built from the same column list), so only the `not in (0, None)` test
matters; a NaN std is unequal to both `0` and `None` and therefore flows
through unchanged. -/
def sigma_for (std : Option ℚ) : Option ℚ :=
  match std with
  | none => none
  | some s => if s = 0 then some 0 else some s

/-- The z-score assignment of `compute_slot_feature_stats` (pf_habits.py
line 161): `(slot_means[feat] - mu) / sigma if sigma else 0.0`, where the
`if sigma` guard uses Python float truthiness.  Division is checked so that a
genuine divide-by-zero would surface as `Except.error`. -/
def slot_z (slotMean mu std : Option ℚ) : Except String (Option ℚ) :=
  let sigma := sigma_for std
  if py_truthy sigma then checkedDiv (osub slotMean mu) sigma
  else Except.ok (some 0)

/-! ## Period pipeline (src/pf_periods.py) -/

/-- One listening event at day granularity, with the fields the period
pipeline reads: timestamp day, country, and the (track, artist) identity used
for deduplication. -/
structure Event where
  day : Int
  country : String
  track : String
  artist : String
  deriving DecidableEq, Repr

/-- A flagged window / merged period as built by `detect_categorical_anomalies`
(pf_periods.py lines 36-42): `start_date`, `end_date` and the `anomalies`
dict, the latter modelled as an association list with unique keys. -/
structure Window where
  start_date : Int
  end_date : Int
  anomalies : List (String × String)
  deriving DecidableEq, Repr

/-- Python dict assignment `d[k] = v`: replace the binding of `k` if present,
otherwise append it. -/
def dictSet (d : List (String × String)) (k v : String) : List (String × String) :=
  if d.any (fun p => p.1 = k) then d.map (fun p => if p.1 = k then (k, v) else p)
  else d ++ [(k, v)]

/-- Whether `country=c` qualifies as an anomaly for window contents `w`
(pf_periods.py lines 27-32): `c != "ZZ"`, `c` differs from the baseline
country, and `c`'s relative frequency (`value_counts(normalize=True)`) is at
least `PERIOD_FEATURE_ZSCORE_THRESHOLD`. -/
def country_qualifies (w : List String) (baseline c : String) : Bool :=
  c ≠ "ZZ" && c ≠ baseline &&
    PERIOD_FEATURE_ZSCORE_THRESHOLD ≤ (w.count c : ℚ) / (w.length : ℚ)

/-- The `anomalies` dict built by the country loop of
`detect_categorical_anomalies` (pf_periods.py lines 24-33): starting from the
empty dict, `anomalies["country"] = c` is executed for every qualifying
country value.  The source iterates the distinct countries in descending
frequency order; since the threshold exceeds 1/2 at most one country can
qualify (`country_qualifies_unique` below), so iterating the distinct values
in first-appearance order yields the same dict. -/
def window_anomalies (w : List String) (baseline : String) : List (String × String) :=
  (w.dedup.filter (country_qualifies w baseline)).foldl
    (fun d c => dictSet d "country" c) []

/-- Smallest day of a list of events (`window.index.min()`); the pipeline only
evaluates it on non-empty lists, where the seed value is absorbed. -/
def daysMin (es : List Event) : Int :=
  (es.map Event.day).foldl min ((es.map Event.day).headD 0)

/-- Largest day of a list of events (`window.index.max()`). -/
def daysMax (es : List Event) : Int :=
  (es.map Event.day).foldl max ((es.map Event.day).headD 0)

/-- The events falling in the window starting at day `t`
(`df_sorted.loc[current_date:window_end_date]`, pf_periods.py lines 17-18). -/
def windowSlice (evs : List Event) (t : Int) : List Event :=
  evs.filter (fun e => t ≤ e.day && e.day ≤ t + (WINDOW_SIZE_DAYS - 1))

/-- The country column of one window (`window["country"]`). -/
def window_countries (evs : List Event) (t : Int) : List String :=
  (windowSlice evs t).map Event.country

/-- The start days visited by the while loop of `detect_categorical_anomalies`
(pf_periods.py lines 14-43): from the minimum day, stepping by
`STEP_SIZE_DAYS = 1`, while `current + (WINDOW_SIZE_DAYS - 1) ≤ max day`.  An
empty frame has no index minimum and the loop body never runs. -/
def scan_starts (evs : List Event) : List Int :=
  match evs with
  | [] => []
  | _ =>
    let lo := daysMin evs
    let hi := daysMax evs
    (List.range (hi - (WINDOW_SIZE_DAYS - 1) - lo + 1).toNat).map (fun i => lo + (i : Int))

/-- The contribution of the window starting at day `t` to the flagged-window
list: skipped when the slice is empty (line 20) or when its anomaly dict is
empty (line 35), otherwise a `Window` whose `start_date`/`end_date` are the
min/max event days of the slice (lines 36-42). -/
def flagged_for (evs : List Event) (baseline : String) (t : Int) : Option Window :=
  let w := windowSlice evs t
  if w.isEmpty then none
  else
    let an := window_anomalies (w.map Event.country) baseline
    if an.isEmpty then none
    else some ⟨daysMin w, daysMax w, an⟩

/-- Embedding of `detect_categorical_anomalies` (pf_periods.py lines 9-45): the sliding
scan collecting the flagged windows. -/
def detect_categorical_anomalies (evs : List Event) (baseline : String) : List Window :=
  (scan_starts evs).filterMap (flagged_for evs baseline)

/-- Embedding of `frozenset(a.items()) == frozenset(b.items())` on dicts: equality of the
underlying sets of key-value pairs. -/
def sameAnomalySet (a b : List (String × String)) : Bool :=
  a.all (· ∈ b) && b.all (· ∈ a)

/-- Stable insertion of a window into a list sorted by `start_date`
(modelling the stable `list.sort(key=lambda x: x["start_date"])`). -/
def insertByStart (x : Window) : List Window → List Window
  | [] => [x]
  | y :: ys =>
    if x.start_date ≤ y.start_date then x :: y :: ys else y :: insertByStart x ys

/-- Stable sort by `start_date` (pf_periods.py line 51). -/
def sortByStart : List Window → List Window
  | [] => []
  | x :: xs => insertByStart x (sortByStart xs)

/-- The merging loop of `merge_consecutive_windows` (pf_periods.py lines
52-66): with `cur` the current period, each next window either extends `cur`
(same anomaly set and `next.start_date - cur.end_date ≤ STEP_SIZE_DAYS`;
the new end is `max(cur.end_date, next.end_date)`) or closes it. -/
def mergeLoop (cur : Window) : List Window → List Window
  | [] => [cur]
  | next :: rest =>
    if sameAnomalySet next.anomalies cur.anomalies
        && next.start_date - cur.end_date ≤ STEP_SIZE_DAYS then
      mergeLoop ⟨cur.start_date, max cur.end_date next.end_date, cur.anomalies⟩ rest
    else
      cur :: mergeLoop next rest

/-- Embedding of `merge_consecutive_windows` (pf_periods.py lines 48-66): sort the flagged
windows by start date, then run the merging loop from the first window. -/
def merge_consecutive_windows (ws : List Window) : List Window :=
  match sortByStart ws with
  | [] => []
  | w :: rest => mergeLoop w rest

/-- The feature value the period track-filter reads off an event
(`period_df[anomaly_type]`): the period detector only ever flags the
`"country"` feature (see `detect_anomalies_country_only`). -/
def eventFeature (e : Event) (f : String) : String :=
  if f = "country" then e.country else ""

/-- The result record of `create_period_from_data` (pf_periods.py lines
69-92), with the fields the claims inspect. -/
structure PeriodR where
  name : String
  tracks : List Event
  contributing_features : List (String × String)
  start_date : Int
  end_date : Int
  deriving DecidableEq, Repr

/-- Embedding of `create_period_from_data` (pf_periods.py lines 69-92): slice the frame to
the period's date range, take the first anomaly (`next(iter(...))`), keep the
events matching it, and package the `Period` with `contributing_features`
equal to the period's anomaly dict.  An empty anomaly dict would make the
source index the frame with `None`; the model returns no tracks then. -/
def create_period_from_data (periodData : Window) (df : List Event) : PeriodR :=
  let period_df := df.filter (fun e =>
    periodData.start_date ≤ e.day && e.day ≤ periodData.end_date)
  let contributing := match periodData.anomalies.head? with
    | some (ft, v) => period_df.filter (fun e => eventFeature e ft = v)
    | none => []
  let av := match periodData.anomalies.head? with
    | some (_, v) => v
    | none => ""
  let nm := "Travel to " ++ av ++ " (" ++ toString periodData.start_date
      ++ " - " ++ toString periodData.end_date ++ ")"
  { name := nm
    tracks := contributing
    contributing_features := periodData.anomalies
    start_date := periodData.start_date
    end_date := periodData.end_date }

/-- Keep-first deduplication by the (track, artist) pair
(`drop_duplicates(subset=["track", "artist"], keep="first")`). -/
def dedupTracks (es : List Event) : List Event :=
  es.foldl (fun acc e =>
    if acc.any (fun x => x.track = e.track && x.artist = e.artist) then acc
    else acc ++ [e]) []

/-- Day span of a period, inclusive of both ends:
`(end_date - start_date).days + 1` (pf_periods.py line 81). -/
def periodDaySpan (p : Window) : Int := p.end_date - p.start_date + 1

/-- The de-duplicated contributing tracks of a merged period: the tracks
selected by `create_period_from_data`, deduplicated by (track, artist). -/
def period_unique_tracks (p : Window) (df : List Event) : List Event :=
  dedupTracks (create_period_from_data p df).tracks

/-- Modelled from the spec: the pf-pipeline orchestration step that applies
`PERIOD_MIN_DAYS` and `MIN_TRACKS_FOR_PLAYLIST` to a merged period is not
present under src/ (both constants are declared in constants.py lines 33 and
37 but are unused there; only the analogous legacy filter with local constants
exists in `pattern_finder.find_periods` lines 188-199).  Modelled from §4.2
steps 4-5: "Deduplicate by (track, artist), keep-first occurrence.  Discard
periods whose de-duplicated track count < `MIN_TRACKS_FOR_PLAYLIST` or whose
day-span < `PERIOD_MIN_DAYS` (inclusive boundaries retained)", with the day
span computed as in `create_period_from_data` line 81. -/
def period_kept (p : Window) (df : List Event) : Bool :=
  !((period_unique_tracks p df).length < MIN_TRACKS_FOR_PLAYLIST)
    && !(periodDaySpan p < PERIOD_MIN_DAYS)

/-! ## Habit pipeline (src/pf_habits.py) -/

/-- One row of the slot-stats table produced by `compute_slot_feature_stats`:
slot key (rendered as a string), event count, distinct-week count, and the
`<feat>_z` columns.  A z column can be absent from the table (`none`) — the
source then reads the row with default `0.0` — or present with a NaN value
(`some none`). -/
structure StatRow where
  slot : String
  count : Nat
  weeks : Nat
  zs : List (String × Option ℚ)
  deriving DecidableEq, Repr

/-- The per-feature test inside `deviating_feature_count` (pf_habits.py lines
178-184): `z = row.get(f"{feat}_z", 0.0)`, then `pd.notna(z) and abs(z) >=
threshold`.  A missing column yields the default `0.0` (which fails every
positive threshold); a NaN cell fails the `notna` test. -/
def z_deviates (zs : List (String × Option ℚ)) (feat : String) (θ : ℚ) : Bool :=
  match zs.lookup (feat ++ "_z") with
  | none => θ ≤ |(0 : ℚ)|
  | some none => false
  | some (some z) => θ ≤ |z|

/-- Embedding of `deviating_feature_count` (pf_habits.py lines 175-185): audio-numeric
features are tested against `HABIT_FEATURE_ZSCORE_THRESHOLD`, behavioral
features against `HABIT_BEHAVIORAL_ZSCORE_THRESHOLD`. -/
def deviating_feature_count (row : StatRow) : Nat :=
  (NUMERICAL_FEATURES_TO_CHECK.filter
      (fun f => z_deviates row.zs f HABIT_FEATURE_ZSCORE_THRESHOLD)).length
  + (HABIT_BEHAVIORAL_FEATURES.filter
      (fun f => z_deviates row.zs f HABIT_BEHAVIORAL_ZSCORE_THRESHOLD)).length

/-- The eligibility mask of `select_habit_slots` (pf_habits.py lines 189-193):
count, distinct weeks and deviating-feature count at or above their
thresholds. -/
def slot_eligible (row : StatRow) : Bool :=
  HABIT_MIN_STREAMS_PER_SLOT ≤ row.count
    && HABIT_MIN_WEEKS ≤ row.weeks
    && HABIT_MIN_NUM_FEATURES ≤ deviating_feature_count row

/-- The eligible rows of the stats table (pf_habits.py lines 189-193). -/
def eligible_rows (stats : List StatRow) : List StatRow :=
  stats.filter slot_eligible

/-- Sort-order predicate of pf_habits.py lines 194-196: deviating-feature
count descending, then event count descending. -/
def habit_row_before (a b : StatRow) : Bool :=
  deviating_feature_count b < deviating_feature_count a
    || (deviating_feature_count a = deviating_feature_count b && b.count ≤ a.count)

/-- Insertion into a list sorted by `habit_row_before`. -/
def insertHabitRow (x : StatRow) : List StatRow → List StatRow
  | [] => [x]
  | y :: ys =>
    if habit_row_before x y then x :: y :: ys else y :: insertHabitRow x ys

/-- Sort by (deviating-feature count desc, count desc), pf_habits.py lines
194-196. -/
def sortHabitRows : List StatRow → List StatRow
  | [] => []
  | x :: xs => insertHabitRow x (sortHabitRows xs)

/-- The rows backing `select_habit_slots` (pf_habits.py lines 171-197): filter
to the eligible rows, sort, truncate to `HABIT_MAX_SLOTS_PER_SCHEMA`. -/
def select_habit_rows (stats : List StatRow) : List StatRow :=
  (sortHabitRows (eligible_rows stats)).take HABIT_MAX_SLOTS_PER_SCHEMA

/-- Embedding of `select_habit_slots` (pf_habits.py lines 171-197): the `_slot` column of
the selected rows. -/
def select_habit_slots (stats : List StatRow) : List String :=
  (select_habit_rows stats).map StatRow.slot

/-! ## Audio-profile clustering (src/pf_habits.py, `cluster_audio_profiles`) -/

/-- A pandas DataFrame reduced to what the leaf functions read: the column
list and the rows, each an association list column → NaN-capable value.  A
column absent from a row's association list models a NaN cell. -/
structure Df where
  cols : List String
  rows : List (List (String × Option ℚ))
  deriving DecidableEq, Repr

/-- Read a cell: a key missing from the row models NaN. -/
def cellOf (r : List (String × Option ℚ)) (c : String) : Option ℚ :=
  (r.lookup c).getD none

/-- A whole column of the frame (`df[col]`). -/
def df_col (df : Df) (c : String) : List (Option ℚ) :=
  df.rows.map (fun r => cellOf r c)

/-- Row mask of `cluster_audio_profiles` line 204:
`df[features].notna().all(axis=1)`. -/
def audio_row_complete (features : List String) (r : List (String × Option ℚ)) : Bool :=
  features.all (fun f => (cellOf r f).isSome)

/-- Scatter the cluster labels back over the full frame (pf_habits.py lines
212-213): rows failing the mask keep `-1`, rows passing it consume the next
label.  The label list always has exactly one label per masked row (an
sklearn `fit_predict` guarantee); the leftover branch is unreachable then. -/
def assign_labels : List Bool → List Int → List Int
  | [], _ => []
  | true :: ms, l :: ls => l :: assign_labels ms ls
  | true :: ms, [] => -1 :: assign_labels ms []
  | false :: ms, ls => -1 :: assign_labels ms ls

/-- Embedding of `cluster_audio_profiles` (pf_habits.py lines 200-214), parametric in the
composed `StandardScaler` + `KMeans(n_clusters=HABIT_AUDIO_CLUSTER_K).
fit_predict` step, which is external library code: fewer than 2 available
audio-feature columns, or fewer than `3·k` rows with all features defined,
yields all `-1`; otherwise the complete rows are clustered and every other
row is labelled `-1`. -/
def cluster_audio_profiles (kmeansFit : List (List ℚ) → List Int) (df : Df) : List Int :=
  let features := NUMERICAL_FEATURES_TO_CHECK.filter (fun f => f ∈ df.cols)
  if features.length < 2 then
    List.replicate df.rows.length (-1)
  else
    let mask := df.rows.map (audio_row_complete features)
    if (mask.count true) < HABIT_AUDIO_CLUSTER_K * 3 then
      List.replicate df.rows.length (-1)
    else
      let X := (df.rows.filter (audio_row_complete features)).map
        (fun r => features.map (fun f => (cellOf r f).getD 0))
      assign_labels mask (kmeansFit X)

/-! ## Cohesion gate (HabitSelector, spec §4.5) -/

/-- Share of the dominant non-(-1) cluster among a slot's events: the largest
per-cluster count over the total number of events of the slot. -/
def dominantClusterShare (labels : List Int) : ℚ :=
  let valid := labels.filter (fun l => l ≠ -1)
  ((valid.dedup.map (fun c => (valid.count c : ℚ))).foldl max 0) / (labels.length : ℚ)

/-- Modelled from the spec: the habit-emission stage of HabitSelector applying
the cluster-cohesion gate is not present under src/ (`HABIT_MIN_CLUSTER_SHARE`
and `HABIT_MIN_CLUSTER_WEEKS` are declared in constants.py lines 69-70 but
unused; `select_habit_slots` and `cluster_audio_profiles` have no caller
there).  Modelled from §4.5: "A candidate slot becomes a Habit only if its
dominant non−1 cluster's share ≥ `HABIT_MIN_CLUSTER_SHARE` and the slot's
distinct-week count ≥ `HABIT_MIN_CLUSTER_WEEKS`." -/
def cohesion_gate (labels : List Int) (weeks : Nat) : Bool :=
  HABIT_MIN_CLUSTER_SHARE ≤ dominantClusterShare labels
    && HABIT_MIN_CLUSTER_WEEKS ≤ weeks

/-- A Habit pattern as far as the cohesion claims inspect it. -/
structure HabitP where
  slot : String
  weeks : Nat
  deriving DecidableEq, Repr

/-- Modelled from the spec: emission of a single candidate slot (already past
the eligibility thresholds) as a Habit, gated by `cohesion_gate` (§4.5); the
gating caller is absent from src/. -/
def emit_habit (slot : String) (labels : List Int) (weeks : Nat) : Option HabitP :=
  if cohesion_gate labels weeks then some ⟨slot, weeks⟩ else none

/-- Modelled from the spec: the per-schema habit pipeline — candidate slots
from `select_habit_slots` (src), each passed through the cohesion gate with
its slot's cluster labels (§4.5); the gluing caller is absent from src/. -/
def emit_habits (stats : List StatRow) (labelsOf : String → List Int) : List HabitP :=
  (select_habit_rows stats).filterMap
    (fun r => emit_habit r.slot (labelsOf r.slot) r.weeks)

/-! ## Baseline (src/pattern_finder.py, `calculate_baseline`) -/

/-- The numerical feature list local to `calculate_baseline`
(pattern_finder.py lines 64-75); it differs from
`NUMERICAL_FEATURES_TO_CHECK` (it adds popularity). -/
def BASELINE_NUMERICAL_FEATURES : List String :=
  ["tempo", "speechiness", "liveness", "acousticness", "energy",
   "danceability", "loudness", "valence", "instrumentalness", "popularity"]

/-- The numeric half of `calculate_baseline` (pattern_finder.py lines 63-78):
for every feature of the list, if its column is present in the frame an entry
`{mean, std}` is added — with no emptiness check (unlike the categorical
half, line 60, which also requires `not df[col].empty`).  The std is
represented by its square, see `pvarSq`. -/
def calculate_baseline_numeric (df : Df) : List (String × (Option ℚ × Option ℚ)) :=
  BASELINE_NUMERICAL_FEATURES.filterMap (fun col =>
    if col ∈ df.cols then some (col, (pmean (df_col df col), pvarSq (df_col df col)))
    else none)

/-! ## Popularity scoring (src/pattern_processing.py, `_calculate_popularity`) -/

/-- One row of a pattern's track table, with the fields `_calculate_popularity`
reads: the track URI, the `skipped` flag, and the NaN-capable
`attention_span`. -/
structure PTrack where
  uri : String
  skipped : Bool
  attention_span : Option ℚ
  deriving DecidableEq, Repr

/-- Insertion into a list of strings sorted ascending. -/
def insertStr (x : String) : List String → List String
  | [] => [x]
  | y :: ys => if x < y then x :: y :: ys else y :: insertStr x ys

/-- Ascending sort of strings (pandas `groupby` sorts its keys). -/
def sortStrs : List String → List String
  | [] => []
  | x :: xs => insertStr x (sortStrs xs)

/-- The group keys of `pattern_tracks.groupby("spotify_track_uri")`
(pattern_processing.py lines 20-27): the distinct URIs, ascending. -/
def track_uris (ts : List PTrack) : List String :=
  sortStrs (ts.map PTrack.uri).dedup

/-- Embedding of `total_plays` of one URI (pattern_processing.py line 23). -/
def total_plays (ts : List PTrack) (u : String) : Nat :=
  (ts.filter (fun t => t.uri = u)).length

/-- Embedding of `total_skips` of one URI (pattern_processing.py line 24). -/
def total_skips (ts : List PTrack) (u : String) : Nat :=
  (ts.filter (fun t => t.uri = u && t.skipped)).length

/-- Embedding of `track_stats["total_plays"].max()` (pattern_processing.py line 36). -/
def max_plays (ts : List PTrack) : Nat :=
  ((track_uris ts).map (total_plays ts)).foldl max 0

/-- Per-URI mean attention span over the non-NaN cells (pattern_processing.py
lines 48-53); NaN when the track has no defined value (the left merge of
lines 54-56 then leaves a NaN cell). -/
def mean_attention (ts : List PTrack) (u : String) : Option ℚ :=
  pmean ((ts.filter (fun t => t.uri = u)).map PTrack.attention_span)

/-- Embedding of `track_stats["mean_attention_span"].mean()` (pattern_processing.py line
59): the NaN-skipping mean over the per-track means. -/
def global_mean_attention (ts : List PTrack) : Option ℚ :=
  pmean ((track_uris ts).map (mean_attention ts))

/-- The backfill value (pattern_processing.py line 60): the global mean, or 0
when that is itself NaN. -/
def attention_fill (ts : List PTrack) : ℚ :=
  (global_mean_attention ts).getD 0

/-- The guard of pattern_processing.py lines 44-47: the attention-span column
carries at least one defined value (a frame without the column behaves like an
all-NaN column: both take the `attention_score = 0` branch). -/
def attention_available (ts : List PTrack) : Bool :=
  ts.any (fun t => t.attention_span.isSome)

/-- The weighted score of one track (pattern_processing.py lines 33-72):
`WEIGHTS["count"] * normalized_plays + WEIGHTS["skip_rate"] * (1 - skip_rate)
+ WEIGHTS["attention_span"] * attention_score`, where `normalized_plays` is
the play count over the pattern maximum (0 if the maximum is 0), and the
attention score is the per-track mean backfilled with `attention_fill` — or 0
for every track when no attention data exists. -/
def track_score (ts : List PTrack) (u : String) : ℚ :=
  let plays := total_plays ts u
  let normalized := if 0 < max_plays ts then (plays : ℚ) / (max_plays ts : ℚ) else 0
  let skip_rate := (total_skips ts u : ℚ) / (plays : ℚ)
  let attention := if attention_available ts
    then (mean_attention ts u).getD (attention_fill ts) else 0
  WEIGHTS_count * normalized + WEIGHTS_skip_rate * (1 - skip_rate)
    + WEIGHTS_attention_span * attention

/-- Embedding of `_calculate_popularity` (pattern_processing.py lines 9-78) at the
`track_stats` level: the per-URI `contextual_popularity_score` column (the
source finally left-merges it back onto the event rows). -/
def calculate_popularity (ts : List PTrack) : List (String × ℚ) :=
  (track_uris ts).map (fun u => (u, track_score ts u))

/-! ## Concrete witness inputs -/

/-- Scenario C of the spec (§8): plays `[10, 5, 1]`, skips `[1, 0, 0]`,
attention spans `[0.9, 0.5, NaN]`. -/
def scenarioC : List PTrack :=
  (⟨"t1", true, some (9/10)⟩ : PTrack) :: List.replicate 9 ⟨"t1", false, some (9/10)⟩
    ++ List.replicate 5 ⟨"t2", false, some (1/2)⟩ ++ [⟨"t3", false, none⟩]

/-- A slot-stats row at the habit eligibility boundary: 100 streams, 6 weeks,
and exactly three deviating audio features. -/
def habitRow0 : StatRow :=
  ⟨"Monday at 18:00", 100, 6,
   [("valence_z", some 1), ("energy_z", some 1), ("tempo_z", some 1)]⟩

/-- A one-row stats table around `habitRow0`. -/
def habitStats0 : List StatRow := [habitRow0]

/-- Slot cluster labels with a dominant cluster 0 of share 5/6. -/
def labelsOf0 : String → List Int := fun _ => [0, 0, 0, 0, 0, 1]

/-- Two flagged windows sharing an anomaly set, one day apart. -/
def windowA : Window := ⟨0, 3, [("country", "FR")]⟩

/-- Second flagged window for the merge witness. -/
def windowB : Window := ⟨1, 4, [("country", "FR")]⟩

/-- Fifteen distinct tracks played in France over the two days 0 and 1. -/
def evs15 : List Event :=
  (List.range 15).map (fun i => ⟨(if i < 7 then 0 else 1 : Int), "FR", toString i, "a"⟩)

/-- A merged period spanning exactly the two days of `evs15`. -/
def periodP15 : Window := ⟨0, 1, [("country", "FR")]⟩

/-- A merged period spanning a single day. -/
def periodP1 : Window := ⟨0, 0, [("country", "FR")]⟩

/-- Fourteen distinct tracks played in France over days 0 and 1. -/
def evs14 : List Event :=
  (List.range 14).map (fun i => ⟨(if i < 7 then 0 else 1 : Int), "FR", toString i, "a"⟩)

/-- Five days of events, four in France against a United States baseline, so
the day-granular scan flags windows. -/
def evsC9 : List Event :=
  [⟨0, "FR", "a", "x"⟩, ⟨1, "FR", "b", "x"⟩, ⟨2, "FR", "c", "x"⟩,
   ⟨3, "FR", "d", "x"⟩, ⟨4, "US", "e", "x"⟩]

/-- A degenerate stand-in for the sklearn scaler+K-means fit: every complete
row lands in cluster 0.  Its outputs satisfy the `fit_predict` contract (one
label per input row, labels in `[0, k)`). -/
def kmeans0 : List (List ℚ) → List Int := fun X => X.map (fun _ => 0)

/-- A frame with both audio-feature columns defined on every row but the
first, and enough complete rows to cluster. -/
def dfW : Df :=
  ⟨["tempo", "energy"],
   [("tempo", (none : Option ℚ)), ("energy", some 2)] ::
     (List.range 20).map (fun _ => [("tempo", some 1), ("energy", some 2)])⟩

/-! ## Helper lemmas -/

/-- Lookup in a guarded `filterMap` association list: an entry exists exactly
for the keys of the source list that pass the guard. -/
theorem lookup_filterMap_guard {α : Type} (l : List String) (p : String → Prop)
    [DecidablePred p] (f : String → α) (col : String) :
    (((l.filterMap (fun c => if p c then some (c, f c) else none)).lookup col).isSome
        = true)
      ↔ col ∈ l ∧ p col := by
  induction l with
  | nil => simp
  | cons c l ih =>
    by_cases hc : p c
    · simp only [List.filterMap_cons, if_pos hc]
      by_cases hcol : col = c
      · subst hcol
        simp [List.lookup_cons, hc]
      · have hbeq : (col == c) = false := beq_false_of_ne hcol
        simp only [List.lookup_cons, hbeq, List.mem_cons]
        rw [ih]
        constructor
        · rintro ⟨h1, h2⟩
          exact ⟨Or.inr h1, h2⟩
        · rintro ⟨h1 | h1, h2⟩
          · exact absurd h1 hcol
          · exact ⟨h1, h2⟩
    · simp only [List.filterMap_cons, if_neg hc]
      rw [ih]
      constructor
      · rintro ⟨h1, h2⟩
        exact ⟨List.mem_cons_of_mem _ h1, h2⟩
      · rintro ⟨h1, h2⟩
        rcases List.mem_cons.mp h1 with h1 | h1
        · subst h1; exact absurd h2 hc
        · exact ⟨h1, h2⟩

/-! ## C4 — slot z-scores at degenerate baseline std -/

/-- C4 counterexample: the claim states that an undefined (NaN) baseline
standard deviation forces the slot's z-score to 0; in the code the NaN std
passes the `not in (0, None)` test and Python float truthiness, so the
z-score is NaN, not 0. -/
theorem slot_z_nan_std_counterexample :
    slot_z (some 1) (some 0) none ≠ Except.ok (some 0) := by
  intro h
  have h2 : (Except.ok (none : Option ℚ) : Except String (Option ℚ))
      = Except.ok (some 0) := h
  injection h2 with h3
  exact Option.noConfusion h3

/-- C4 (amended): a baseline standard deviation of 0 forces the slot's
z-score to 0; an undefined (NaN) standard deviation propagates to a NaN
z-score instead of 0; in every case the computation returns without raising a
division fault. -/
theorem slot_z_degenerate_std (m mu s : Option ℚ) :
    (s = some 0 → slot_z m mu s = Except.ok (some 0)) ∧
    (s = none → slot_z m mu s = Except.ok none) ∧
    (∃ v, slot_z m mu s = Except.ok v) := by
  refine ⟨fun h => ?_, fun h => ?_, ?_⟩
  · subst h; rfl
  · subst h; rfl
  · match s with
    | none => exact ⟨none, rfl⟩
    | some q =>
      by_cases hq : q = 0
      · subst hq; exact ⟨some 0, rfl⟩
      · refine ⟨(osub m mu).map (· / q), ?_⟩
        simp [slot_z, sigma_for, if_neg hq, py_truthy, checkedDiv, hq]

/-- C4 witness: the amended theorem applied at concrete inputs. -/
theorem slot_z_degenerate_std_witness :
    slot_z (some 3) (some 1) (some 0) = Except.ok (some 0) ∧
    slot_z (some 3) (some 1) none = Except.ok none :=
  ⟨(slot_z_degenerate_std (some 3) (some 1) (some 0)).1 rfl,
   (slot_z_degenerate_std (some 3) (some 1) none).2.1 rfl⟩

/-! ## C8 — numeric baseline entries -/

/-- C8 counterexample: the claim states a numeric feature gets a baseline
entry iff its column is present and non-empty; `calculate_baseline` checks
emptiness only for categorical columns, so a present-but-empty numeric column
still yields an entry (with NaN mean and std). -/
theorem baseline_empty_column_counterexample :
    ¬ ((((calculate_baseline_numeric ⟨["tempo"], []⟩).lookup "tempo").isSome = true)
        ↔ ("tempo" ∈ (Df.mk ["tempo"] []).cols ∧ (Df.mk ["tempo"] []).rows ≠ [])) := by
  decide

/-- C8 (amended): the computed baseline contains an entry for a numeric
feature iff that feature's column is present — even when the column is empty,
in which case the entry carries NaN statistics; an absent column is silently
excluded and the computation is total (never an error). -/
theorem baseline_numeric_entry_iff (df : Df) (col : String) :
    (((calculate_baseline_numeric df).lookup col).isSome = true)
      ↔ col ∈ BASELINE_NUMERICAL_FEATURES ∧ col ∈ df.cols := by
  exact lookup_filterMap_guard BASELINE_NUMERICAL_FEATURES (fun c => c ∈ df.cols)
    (fun c => (pmean (df_col df c), pvarSq (df_col df c))) col

/-! ## C3 — period retention boundary -/

/-- C3: a merged period with day-span exactly `PERIOD_MIN_DAYS` and exactly
`MIN_TRACKS_FOR_PLAYLIST` de-duplicated (track, artist) pairs is retained;
one day less, or one unique pair less, drops it. -/
theorem period_kept_boundary (p : Window) (df : List Event) :
    (periodDaySpan p = PERIOD_MIN_DAYS →
      (period_unique_tracks p df).length = MIN_TRACKS_FOR_PLAYLIST →
      period_kept p df = true) ∧
    (periodDaySpan p = PERIOD_MIN_DAYS - 1 → period_kept p df = false) ∧
    ((period_unique_tracks p df).length = MIN_TRACKS_FOR_PLAYLIST - 1 →
      period_kept p df = false) := by
  refine ⟨fun hd ht => ?_, fun hd => ?_, fun ht => ?_⟩
  · simp [period_kept, hd, ht, MIN_TRACKS_FOR_PLAYLIST, PERIOD_MIN_DAYS]
  · simp [period_kept, hd, PERIOD_MIN_DAYS]
  · simp [period_kept, ht, MIN_TRACKS_FOR_PLAYLIST]

/-- C3 witness: at the exact boundary (span 2 days, 15 unique pairs) the
period is retained; a one-day span and a 14-pair period are each dropped. -/
theorem period_kept_boundary_witness :
    period_kept periodP15 evs15 = true ∧
    period_kept periodP1 evs15 = false ∧
    period_kept periodP15 evs14 = false :=
  ⟨(period_kept_boundary periodP15 evs15).1 (by decide) (by decide),
   (period_kept_boundary periodP1 evs15).2.1 (by decide),
   (period_kept_boundary periodP15 evs14).2.2 (by decide)⟩

/-! ## C7 — popularity scoring, Scenario C -/

/-- C7 counterexample: with plays `[10, 5, 1]`, skips `[1, 0, 0]` and
attention spans `[0.9, 0.5, NaN]`, the claim gives track 1 the score 0.77;
the weighted sum `0.5·1.0 + 0.3·0.9 + 0.2·0.9` actually computed by
`_calculate_popularity` is 0.95. -/
theorem popularity_scenarioC_counterexample :
    (calculate_popularity scenarioC).lookup "t1" ≠ some (77/100 : ℚ) :=
  of_decide_eq_false (by with_unfolding_all rfl)

/-- C7 (amended): on Scenario C the scores are
`0.5·1.0 + 0.3·0.9 + 0.2·0.9 = 0.95` for track 1, 0.65 for track 2 and 0.49
for track 3; track 3's NaN attention span is backfilled with the mean of the
other tracks' attention spans (0.7), while tracks 1 and 2 keep their own
means 0.9 and 0.5. -/
theorem popularity_scenarioC :
    calculate_popularity scenarioC =
      [("t1", 19/20), ("t2", 13/20), ("t3", 49/100)] ∧
    mean_attention scenarioC "t3" = none ∧
    attention_fill scenarioC = 7/10 ∧
    (mean_attention scenarioC "t1").getD (attention_fill scenarioC) = 9/10 ∧
    (mean_attention scenarioC "t2").getD (attention_fill scenarioC) = 1/2 := by
  refine ⟨?_, ?_, ?_, ?_, ?_⟩ <;> with_unfolding_all rfl

/-! ## C5 — habit slot eligibility boundary -/

/-- Membership is preserved by sorted insertion of stats rows. -/
theorem mem_insertHabitRow (x a : StatRow) (l : List StatRow) :
    a ∈ insertHabitRow x l ↔ a = x ∨ a ∈ l := by
  induction l with
  | nil => simp [insertHabitRow]
  | cons y ys ih =>
    simp only [insertHabitRow]
    split
    · simp [List.mem_cons]
    · simp only [List.mem_cons, ih]
      tauto

/-- Sorting the stats rows preserves membership. -/
theorem mem_sortHabitRows (a : StatRow) (l : List StatRow) :
    a ∈ sortHabitRows l ↔ a ∈ l := by
  induction l with
  | nil => simp [sortHabitRows]
  | cons y ys ih =>
    simp only [sortHabitRows, mem_insertHabitRow, List.mem_cons, ih]

/-- C5: a slot row with event count and distinct weeks at their thresholds and
exactly `HABIT_MIN_NUM_FEATURES` deviating features is retained among the
eligible habit candidates; a row with one fewer deviating feature is not
eligible regardless of count or weeks; and every slot emitted by
`select_habit_slots` stems from an eligible row. -/
theorem select_habit_slots_boundary (stats : List StatRow) (r : StatRow) :
    (r ∈ stats → HABIT_MIN_STREAMS_PER_SLOT ≤ r.count → HABIT_MIN_WEEKS ≤ r.weeks →
      deviating_feature_count r = HABIT_MIN_NUM_FEATURES → r ∈ eligible_rows stats) ∧
    (deviating_feature_count r = HABIT_MIN_NUM_FEATURES - 1 →
      r ∉ eligible_rows stats) ∧
    (∀ s ∈ select_habit_slots stats, ∃ r2, r2 ∈ eligible_rows stats ∧ r2.slot = s) := by
  refine ⟨fun hmem hc hw hd => ?_, fun hd hmem => ?_, fun s hs => ?_⟩
  · refine List.mem_filter.mpr ⟨hmem, ?_⟩
    simp only [slot_eligible, hd, Bool.and_eq_true, decide_eq_true_eq]
    exact ⟨⟨hc, hw⟩, le_refl _⟩
  · have h2 := (List.mem_filter.mp hmem).2
    simp only [slot_eligible, hd, Bool.and_eq_true, decide_eq_true_eq] at h2
    have := h2.2
    simp [HABIT_MIN_NUM_FEATURES] at this
  · rcases List.mem_map.mp hs with ⟨r2, hr2, hslot⟩
    have hr2' : r2 ∈ sortHabitRows (eligible_rows stats) :=
      List.take_subset _ _ hr2
    exact ⟨r2, (mem_sortHabitRows r2 (eligible_rows stats)).mp hr2', hslot⟩

/-- C5 witness: the boundary row (100 streams, 6 weeks, exactly 3 deviating
features) is eligible. -/
theorem select_habit_slots_boundary_witness :
    habitRow0 ∈ eligible_rows habitStats0 :=
  (select_habit_slots_boundary habitStats0 habitRow0).1
    (of_decide_eq_true (by with_unfolding_all rfl))
    (of_decide_eq_true (by with_unfolding_all rfl))
    (of_decide_eq_true (by with_unfolding_all rfl))
    (of_decide_eq_true (by with_unfolding_all rfl))

/-! ## C1 — cluster-cohesion gate -/

/-- C1: a candidate slot selected by `select_habit_slots` is emitted as a
Habit iff its dominant non-(-1) cluster share reaches
`HABIT_MIN_CLUSTER_SHARE` and its distinct-week count reaches
`HABIT_MIN_CLUSTER_WEEKS`; failing either cohesion condition yields no Habit;
and the per-schema habit output is exactly the gated candidates. -/
theorem habit_cohesion_gate (stats : List StatRow) (labelsOf : String → List Int)
    (r : StatRow) (_hr : r ∈ select_habit_rows stats) :
    ((emit_habit r.slot (labelsOf r.slot) r.weeks).isSome = true ↔
      HABIT_MIN_CLUSTER_SHARE ≤ dominantClusterShare (labelsOf r.slot) ∧
        HABIT_MIN_CLUSTER_WEEKS ≤ r.weeks) ∧
    (¬ (HABIT_MIN_CLUSTER_SHARE ≤ dominantClusterShare (labelsOf r.slot) ∧
          HABIT_MIN_CLUSTER_WEEKS ≤ r.weeks) →
      emit_habit r.slot (labelsOf r.slot) r.weeks = none) ∧
    emit_habits stats labelsOf =
      (select_habit_rows stats).filterMap
        (fun r2 => emit_habit r2.slot (labelsOf r2.slot) r2.weeks) := by
  have hgate : cohesion_gate (labelsOf r.slot) r.weeks = true ↔
      (HABIT_MIN_CLUSTER_SHARE ≤ dominantClusterShare (labelsOf r.slot) ∧
        HABIT_MIN_CLUSTER_WEEKS ≤ r.weeks) := by
    simp [cohesion_gate]
  refine ⟨?_, fun hn => ?_, rfl⟩
  · rw [← hgate]
    by_cases h : cohesion_gate (labelsOf r.slot) r.weeks <;> simp [emit_habit, h]
  · rw [← hgate] at hn
    have hfalse : cohesion_gate (labelsOf r.slot) r.weeks = false := by
      revert hn
      cases cohesion_gate (labelsOf r.slot) r.weeks <;> simp
    simp [emit_habit, hfalse]

/-- C1 witness: the selected boundary slot with a 5/6-share dominant cluster
and 6 distinct weeks passes the gate and is emitted. -/
theorem habit_cohesion_gate_witness :
    (emit_habit habitRow0.slot (labelsOf0 habitRow0.slot) habitRow0.weeks).isSome
      = true :=
  (habit_cohesion_gate habitStats0 labelsOf0 habitRow0
      (of_decide_eq_true (by with_unfolding_all rfl))).1.mpr
    ⟨of_decide_eq_true (by with_unfolding_all rfl),
     of_decide_eq_true (by with_unfolding_all rfl)⟩

/-! ## C2 — window merging -/

/-- One step of the merging loop, with the Boolean guard spelled out as a
proposition: the next window extends the current period iff the anomaly sets
agree as sets and the start-to-end gap is at most `STEP_SIZE_DAYS`. -/
theorem mergeLoop_cons (cur next : Window) (rest : List Window) :
    mergeLoop cur (next :: rest) =
      if sameAnomalySet next.anomalies cur.anomalies = true ∧
          next.start_date - cur.end_date ≤ STEP_SIZE_DAYS
      then mergeLoop ⟨cur.start_date, max cur.end_date next.end_date, cur.anomalies⟩ rest
      else cur :: mergeLoop next rest := by
  by_cases hc : sameAnomalySet next.anomalies cur.anomalies = true ∧
      next.start_date - cur.end_date ≤ STEP_SIZE_DAYS
  · rw [if_pos hc]
    simp only [mergeLoop]
    rw [if_pos (by simp only [Bool.and_eq_true, decide_eq_true_eq]; exact hc)]
  · rw [if_neg hc]
    simp only [mergeLoop]
    rw [if_neg (by simp only [Bool.and_eq_true, decide_eq_true_eq]; exact hc)]

/-- C2: two flagged windows in start order are merged into a single period
spanning their combined range iff their anomaly sets are exactly equal and
the gap from the next start to the current end is at most `STEP_SIZE_DAYS`;
otherwise the current period is closed and the next window starts a new one —
stated for the general loop step and for a two-window run of
`merge_consecutive_windows`. -/
theorem merge_consecutive_windows_adjacent (w1 w2 : Window)
    (h : w1.start_date ≤ w2.start_date) :
    (∀ (cur next : Window) (rest : List Window),
      mergeLoop cur (next :: rest) =
        if sameAnomalySet next.anomalies cur.anomalies = true ∧
            next.start_date - cur.end_date ≤ STEP_SIZE_DAYS
        then mergeLoop ⟨cur.start_date, max cur.end_date next.end_date, cur.anomalies⟩
          rest
        else cur :: mergeLoop next rest) ∧
    merge_consecutive_windows [w1, w2] =
      (if sameAnomalySet w2.anomalies w1.anomalies = true ∧
          w2.start_date - w1.end_date ≤ STEP_SIZE_DAYS
      then [⟨w1.start_date, max w1.end_date w2.end_date, w1.anomalies⟩]
      else [w1, w2]) := by
  refine ⟨fun cur next rest => mergeLoop_cons cur next rest, ?_⟩
  have hsort : sortByStart [w1, w2] = [w1, w2] := by
    simp only [sortByStart, insertByStart]
    rw [if_pos h]
  unfold merge_consecutive_windows
  rw [hsort]
  simp only []
  rw [mergeLoop_cons]
  by_cases hc : sameAnomalySet w2.anomalies w1.anomalies = true ∧
      w2.start_date - w1.end_date ≤ STEP_SIZE_DAYS
  · rw [if_pos hc, if_pos hc]
    rfl
  · rw [if_neg hc, if_neg hc]
    rfl

/-- C2 witness: windows `[0,3]` and `[1,4]`, both flagged `country=FR`, merge
into the single period `[0,4]`. -/
theorem merge_consecutive_windows_adjacent_witness :
    merge_consecutive_windows [windowA, windowB] = [⟨0, 4, [("country", "FR")]⟩] := by
  rw [(merge_consecutive_windows_adjacent windowA windowB
      (of_decide_eq_true (by with_unfolding_all rfl))).2,
    if_pos ⟨of_decide_eq_true (by with_unfolding_all rfl),
      of_decide_eq_true (by with_unfolding_all rfl)⟩]
  with_unfolding_all rfl

/-! ## C6 — per-window anomaly flagging -/

/-- Counts of two distinct values never exceed the list length together. -/
theorem count_add_count_le_length (w : List String) (c d : String) (hcd : c ≠ d) :
    w.count c + w.count d ≤ w.length := by
  induction w with
  | nil => simp
  | cons x xs ih =>
    simp only [List.count_cons, List.length_cons, beq_iff_eq]
    by_cases hxc : x = c <;> by_cases hxd : x = d
    · exact absurd (hxc.symm.trans hxd) hcd
    · rw [if_pos hxc, if_neg hxd]
      omega
    · rw [if_neg hxc, if_pos hxd]
      omega
    · rw [if_neg hxc, if_neg hxd]
      omega

/-- The anomaly condition unfolded to a proposition. -/
theorem country_qualifies_iff (w : List String) (b c : String) :
    country_qualifies w b c = true ↔
      (c ≠ "ZZ" ∧ c ≠ b ∧
        PERIOD_FEATURE_ZSCORE_THRESHOLD ≤ (w.count c : ℚ) / (w.length : ℚ)) := by
  simp [country_qualifies, and_assoc]

/-- A qualifying country has a positive count in a non-empty window. -/
theorem qualifies_pos (w : List String) (b c : String)
    (h : country_qualifies w b c = true) : 0 < w.count c ∧ 0 < w.length := by
  have hfreq : PERIOD_FEATURE_ZSCORE_THRESHOLD
      ≤ (w.count c : ℚ) / (w.length : ℚ) := ((country_qualifies_iff w b c).mp h).2.2
  have hlen : 0 < w.length := by
    by_contra hl
    have h0 : w.length = 0 := by omega
    rw [h0] at hfreq
    norm_num [PERIOD_FEATURE_ZSCORE_THRESHOLD] at hfreq
  have hcount : 0 < w.count c := by
    by_contra hcnt
    have h0 : w.count c = 0 := by omega
    rw [h0] at hfreq
    norm_num [PERIOD_FEATURE_ZSCORE_THRESHOLD] at hfreq
  exact ⟨hcount, hlen⟩

/-- At the threshold 0.6 > 1/2, at most one country can qualify per window. -/
theorem country_qualifies_unique (w : List String) (b c d : String)
    (hc : country_qualifies w b c = true) (hd : country_qualifies w b d = true) :
    c = d := by
  by_contra hcd
  have hfc := ((country_qualifies_iff w b c).mp hc).2.2
  have hfd := ((country_qualifies_iff w b d).mp hd).2.2
  have hlen : 0 < w.length := (qualifies_pos w b c hc).2
  have hlenQ : (0 : ℚ) < (w.length : ℚ) := by exact_mod_cast hlen
  rw [PERIOD_FEATURE_ZSCORE_THRESHOLD] at hfc hfd
  have h1 : (3/5 : ℚ) * w.length ≤ w.count c := (le_div_iff₀ hlenQ).mp hfc
  have h2 : (3/5 : ℚ) * w.length ≤ w.count d := (le_div_iff₀ hlenQ).mp hfd
  have hsum : w.count c + w.count d ≤ w.length := count_add_count_le_length w c d hcd
  have hsumQ : (w.count c : ℚ) + (w.count d : ℚ) ≤ (w.length : ℚ) := by
    exact_mod_cast hsum
  linarith

/-- Folding dict assignments of the key `"country"` over a value list keeps a
single-entry dict holding the last value. -/
theorem countryFold_acc (l : List String) (c : String) :
    l.foldl (fun d c2 => dictSet d "country" c2) [("country", c)] =
      [("country", l.getLastD c)] := by
  induction l generalizing c with
  | nil => rfl
  | cons x xs ih =>
    rw [List.foldl_cons]
    have hset : dictSet [("country", c)] "country" x = [("country", x)] := by
      simp [dictSet]
    rw [hset, ih, List.getLastD_cons]

/-- The anomaly dict of a window is empty or a single `country` entry whose
value qualifies. -/
theorem window_anomalies_shape (w : List String) (b : String) :
    window_anomalies w b = [] ∨
      ∃ c, window_anomalies w b = [("country", c)] ∧
        country_qualifies w b c = true := by
  unfold window_anomalies
  cases hF : w.dedup.filter (country_qualifies w b) with
  | nil => exact Or.inl rfl
  | cons x xs =>
    right
    have hx : dictSet [] "country" x = [("country", x)] := by simp [dictSet]
    rw [List.foldl_cons, hx, countryFold_acc]
    refine ⟨xs.getLastD x, rfl, ?_⟩
    have hmem : xs.getLastD x ∈ x :: xs := List.getLastD_mem_cons xs x
    rw [← hF] at hmem
    exact (List.mem_filter.mp hmem).2

/-- The anomaly dict is empty iff no country qualifies. -/
theorem window_anomalies_eq_nil_iff (w : List String) (b : String) :
    window_anomalies w b = [] ↔ ∀ c, country_qualifies w b c = false := by
  constructor
  · intro h c
    by_contra hq
    have hq' : country_qualifies w b c = true := by
      revert hq
      cases country_qualifies w b c <;> simp
    have hcount := (qualifies_pos w b c hq').1
    have hmemw : c ∈ w := List.count_pos_iff.mp hcount
    have hmem : c ∈ w.dedup.filter (country_qualifies w b) :=
      List.mem_filter.mpr ⟨List.mem_dedup.mpr hmemw, hq'⟩
    unfold window_anomalies at h
    cases hF : w.dedup.filter (country_qualifies w b) with
    | nil =>
      rw [hF] at hmem
      exact absurd hmem (List.not_mem_nil c)
    | cons x xs =>
      rw [hF, List.foldl_cons] at h
      have hx : dictSet [] "country" x = [("country", x)] := by simp [dictSet]
      rw [hx, countryFold_acc] at h
      exact List.noConfusion h
  · intro hall
    unfold window_anomalies
    rw [List.filter_eq_nil_iff.mpr (fun a _ => by simp [hall a])]
    rfl

/-- A qualifying country is the unique entry of the anomaly dict. -/
theorem window_anomalies_of_qualifies (w : List String) (b c : String)
    (h : country_qualifies w b c = true) :
    window_anomalies w b = [("country", c)] := by
  rcases window_anomalies_shape w b with hnil | ⟨c2, heq, hq2⟩
  · have hfalse := (window_anomalies_eq_nil_iff w b).mp hnil c
    rw [h] at hfalse
    exact Bool.noConfusion hfalse
  · rw [heq, country_qualifies_unique w b c c2 h hq2]

/-- A window contributes no flagged window iff no country qualifies in it. -/
theorem flagged_for_none_iff (evs : List Event) (b : String) (t : Int) :
    flagged_for evs b t = none ↔
      ∀ c, country_qualifies (window_countries evs t) b c = false := by
  constructor
  · intro h c
    by_contra hq
    have hq' : country_qualifies (window_countries evs t) b c = true := by
      revert hq
      cases country_qualifies (window_countries evs t) b c <;> simp
    have hlen := (qualifies_pos _ b c hq').2
    have hemp : ¬ ((windowSlice evs t).isEmpty = true) := by
      intro hnil
      rw [List.isEmpty_iff] at hnil
      rw [window_countries, hnil] at hlen
      simp at hlen
    have han := window_anomalies_of_qualifies _ b c hq'
    rw [window_countries] at han
    simp only [flagged_for] at h
    rw [if_neg hemp, han] at h
    simp at h
  · intro hall
    have hnil : window_anomalies (window_countries evs t) b = [] :=
      (window_anomalies_eq_nil_iff _ _).mpr hall
    rw [window_countries] at hnil
    simp only [flagged_for]
    by_cases hemp : (windowSlice evs t).isEmpty = true
    · rw [if_pos hemp]
    · rw [if_neg hemp, hnil]
      rfl

/-- A window contributes a flagged window carrying `{"country": c}` iff `c`
qualifies in it. -/
theorem flagged_for_some_iff (evs : List Event) (b : String) (t : Int) (c : String) :
    (∃ fw, flagged_for evs b t = some fw ∧ fw.anomalies = [("country", c)]) ↔
      country_qualifies (window_countries evs t) b c = true := by
  constructor
  · rintro ⟨fw, hfw, han⟩
    by_cases hemp : (windowSlice evs t).isEmpty = true
    · simp only [flagged_for] at hfw
      rw [if_pos hemp] at hfw
      exact Option.noConfusion hfw
    · simp only [flagged_for] at hfw
      rw [if_neg hemp] at hfw
      rcases window_anomalies_shape (window_countries evs t) b with hnil | ⟨c2, heq, hq2⟩
      · rw [window_countries] at hnil
        rw [hnil] at hfw
        exact Option.noConfusion hfw
      · have heq' := heq
        rw [window_countries] at heq'
        rw [heq'] at hfw
        simp only [List.isEmpty_cons, if_neg] at hfw
        have hfw' : fw = ⟨daysMin (windowSlice evs t), daysMax (windowSlice evs t),
            [("country", c2)]⟩ := by
          by_contra hne
          rw [if_neg (by simp)] at hfw
          exact hne (Option.some.inj hfw).symm
        rw [hfw'] at han
        simp only at han
        have hc2 : c2 = c := by
          have := List.cons.inj han
          exact (Prod.mk.inj this.1).2
        rw [← hc2]
        exact hq2
  · intro hq
    have hlen := (qualifies_pos _ b c hq).2
    have hemp : ¬ ((windowSlice evs t).isEmpty = true) := by
      intro hnil
      rw [List.isEmpty_iff] at hnil
      rw [window_countries, hnil] at hlen
      simp at hlen
    have han := window_anomalies_of_qualifies _ b c hq
    rw [window_countries] at han
    refine ⟨⟨daysMin (windowSlice evs t), daysMax (windowSlice evs t),
      [("country", c)]⟩, ?_, rfl⟩
    simp only [flagged_for]
    rw [if_neg hemp, han]
    rfl

/-- C6: in every window of the sliding scan, `country=c` is flagged iff `c`
is not the unknown sentinel `"ZZ"`, differs from the baseline country, and
has relative frequency at least the anomaly threshold among the window's
events; a window with no such value contributes no flagged window to the
scan's output. -/
theorem detect_window_flag_iff (evs : List Event) (b : String) (t : Int)
    (c : String) :
    ((∃ fw, flagged_for evs b t = some fw ∧ fw.anomalies = [("country", c)]) ↔
      (c ≠ "ZZ" ∧ c ≠ b ∧
        PERIOD_FEATURE_ZSCORE_THRESHOLD ≤
          ((window_countries evs t).count c : ℚ) /
            ((window_countries evs t).length : ℚ))) ∧
    (flagged_for evs b t = none ↔
      ∀ c2, ¬ (c2 ≠ "ZZ" ∧ c2 ≠ b ∧
        PERIOD_FEATURE_ZSCORE_THRESHOLD ≤
          ((window_countries evs t).count c2 : ℚ) /
            ((window_countries evs t).length : ℚ))) ∧
    detect_categorical_anomalies evs b =
      (scan_starts evs).filterMap (flagged_for evs b) := by
  refine ⟨?_, ?_, rfl⟩
  · rw [flagged_for_some_iff evs b t c, country_qualifies_iff]
  · rw [flagged_for_none_iff evs b t]
    constructor
    · intro hall c2 hp
      have := hall c2
      rw [(country_qualifies_iff _ b c2).mpr hp] at this
      exact Bool.noConfusion this
    · intro hall c2
      by_contra hq
      have hq' : country_qualifies (window_countries evs t) b c2 = true := by
        revert hq
        cases country_qualifies (window_countries evs t) b c2 <;> simp
      exact hall c2 ((country_qualifies_iff _ b c2).mp hq')

/-! ## C9 — periods carry exactly one `country` anomaly -/

/-- Every flagged window emitted for a scan position carries a single-entry
`country` anomaly dict. -/
theorem flagged_for_anomalies (evs : List Event) (b : String) (t : Int)
    (fw : Window) (h : flagged_for evs b t = some fw) :
    ∃ c, fw.anomalies = [("country", c)] := by
  by_cases hemp : (windowSlice evs t).isEmpty = true
  · simp only [flagged_for] at h
    rw [if_pos hemp] at h
    exact Option.noConfusion h
  · simp only [flagged_for] at h
    rw [if_neg hemp] at h
    rcases window_anomalies_shape ((windowSlice evs t).map Event.country) b with
      hnil | ⟨c, heq, -⟩
    · rw [hnil] at h
      exact Option.noConfusion h
    · rw [heq] at h
      rw [if_neg (by simp)] at h
      exact ⟨c, by rw [← Option.some.inj h]⟩

/-- Membership is preserved by sorted insertion of windows. -/
theorem mem_insertByStart (x a : Window) (l : List Window) :
    a ∈ insertByStart x l ↔ a = x ∨ a ∈ l := by
  induction l with
  | nil => simp [insertByStart]
  | cons y ys ih =>
    simp only [insertByStart]
    split
    · simp [List.mem_cons]
    · simp only [List.mem_cons, ih]
      tauto

/-- Sorting windows by start date preserves membership. -/
theorem mem_sortByStart (a : Window) (l : List Window) :
    a ∈ sortByStart l ↔ a ∈ l := by
  induction l with
  | nil => simp [sortByStart]
  | cons y ys ih =>
    simp only [sortByStart, mem_insertByStart, List.mem_cons, ih]

/-- Every period produced by the merging loop carries the anomaly set of the
current period or of one of the remaining windows. -/
theorem mergeLoop_anomalies (rest : List Window) (cur p : Window)
    (hp : p ∈ mergeLoop cur rest) :
    p.anomalies = cur.anomalies ∨ ∃ w ∈ rest, p.anomalies = w.anomalies := by
  induction rest generalizing cur with
  | nil =>
    have : p = cur := by simpa [mergeLoop] using hp
    exact Or.inl (by rw [this])
  | cons next rest ih =>
    rw [mergeLoop_cons] at hp
    by_cases hc : sameAnomalySet next.anomalies cur.anomalies = true ∧
        next.start_date - cur.end_date ≤ STEP_SIZE_DAYS
    · rw [if_pos hc] at hp
      rcases ih _ hp with h | ⟨w, hw, hpw⟩
      · exact Or.inl h
      · exact Or.inr ⟨w, List.mem_cons_of_mem _ hw, hpw⟩
    · rw [if_neg hc] at hp
      rcases List.mem_cons.mp hp with h | h
      · exact Or.inl (by rw [h])
      · rcases ih _ h with h2 | ⟨w, hw, hpw⟩
        · exact Or.inr ⟨next, List.mem_cons_self _ _, h2⟩
        · exact Or.inr ⟨w, List.mem_cons_of_mem _ hw, hpw⟩

/-- Every merged period's anomaly set is one of the input windows'. -/
theorem merge_anomalies (ws : List Window) (p : Window)
    (hp : p ∈ merge_consecutive_windows ws) :
    ∃ w ∈ ws, p.anomalies = w.anomalies := by
  unfold merge_consecutive_windows at hp
  rcases hsplit : sortByStart ws with _ | ⟨w, rest⟩
  · rw [hsplit] at hp
    simp at hp
  · rw [hsplit] at hp
    rcases mergeLoop_anomalies rest w p hp with h | ⟨w2, hw2, hpw⟩
    · refine ⟨w, ?_, h⟩
      rw [← mem_sortByStart, hsplit]
      exact List.mem_cons_self _ _
    · refine ⟨w2, ?_, hpw⟩
      rw [← mem_sortByStart, hsplit]
      exact List.mem_cons_of_mem _ hw2

/-- C9: every flagged window of the period scan carries the single anomaly
entry `{"country": c}` for some country `c`; merging preserves this, and
`create_period_from_data` copies the merged anomaly dict verbatim into the
Period's `contributing_features`, so every Period has exactly the one key
`"country"`. -/
theorem period_country_invariant (evs : List Event) (b : String) :
    (∀ fw ∈ detect_categorical_anomalies evs b,
      ∃ c, fw.anomalies = [("country", c)]) ∧
    (∀ p ∈ merge_consecutive_windows (detect_categorical_anomalies evs b),
      ∃ c, p.anomalies = [("country", c)]) ∧
    (∀ (p : Window) (df : List Event),
      (create_period_from_data p df).contributing_features = p.anomalies) := by
  have h1 : ∀ fw ∈ detect_categorical_anomalies evs b,
      ∃ c, fw.anomalies = [("country", c)] := by
    intro fw hfw
    rcases List.mem_filterMap.mp hfw with ⟨t, -, hsome⟩
    exact flagged_for_anomalies evs b t fw hsome
  refine ⟨h1, ?_, fun p df => rfl⟩
  intro p hp
  rcases merge_anomalies _ p hp with ⟨w, hw, hpw⟩
  rcases h1 w hw with ⟨c, hc⟩
  exact ⟨c, by rw [hpw, hc]⟩

/-- C9 witness: the invariant applied to a flagged window of the concrete
five-day scan. -/
theorem period_country_invariant_witness :
    ∃ c, (Window.mk 0 3 [("country", "FR")]).anomalies = [("country", c)] :=
  (period_country_invariant evsC9 "US").1 ⟨0, 3, [("country", "FR")]⟩
    (of_decide_eq_true (by with_unfolding_all rfl))

/-! ## C10 — cluster labelling invariants -/

/-- Scattered labels have one entry per mask cell. -/
theorem assign_labels_length (ms : List Bool) (ls : List Int) :
    (assign_labels ms ls).length = ms.length := by
  induction ms generalizing ls with
  | nil => rfl
  | cons m ms ih =>
    cases m
    · simp [assign_labels, ih]
    · cases ls
      · simp [assign_labels, ih]
      · simp [assign_labels, ih]

/-- Equation for a masked-out row: it takes `-1` whatever the labels are. -/
theorem assign_labels_false (ms : List Bool) (ls : List Int) :
    assign_labels (false :: ms) ls = -1 :: assign_labels ms ls := by
  cases ls <;> rfl

/-- Every scattered label is `-1` or comes from the label list. -/
theorem assign_labels_mem (ms : List Bool) (ls : List Int) (P : Int → Prop)
    (h : ∀ l ∈ ls, P l) :
    ∀ l ∈ assign_labels ms ls, l = -1 ∨ P l := by
  induction ms generalizing ls with
  | nil =>
    intro l hl
    simp [assign_labels] at hl
  | cons m ms ih =>
    intro l hl
    cases m
    · rw [assign_labels_false] at hl
      rcases List.mem_cons.mp hl with h1 | h1
      · exact Or.inl h1
      · exact ih ls h l h1
    · cases ls with
      | nil =>
        rw [show assign_labels (true :: ms) [] = -1 :: assign_labels ms [] from rfl] at hl
        rcases List.mem_cons.mp hl with h1 | h1
        · exact Or.inl h1
        · exact ih [] (by simp) l h1
      | cons x ls =>
        rw [show assign_labels (true :: ms) (x :: ls)
            = x :: assign_labels ms ls from rfl] at hl
        rcases List.mem_cons.mp hl with h1 | h1
        · exact Or.inr (h1 ▸ h x (List.mem_cons_self _ _))
        · exact ih ls (fun l2 hl2 => h l2 (List.mem_cons_of_mem _ hl2)) l h1

/-- A row masked out keeps the label `-1` at its position. -/
theorem assign_labels_get_false (ms : List Bool) (ls : List Int) (i : Nat)
    (h : ms[i]? = some false) :
    (assign_labels ms ls)[i]? = some (-1) := by
  induction ms generalizing ls i with
  | nil => simp at h
  | cons m ms ih =>
    cases i with
    | zero =>
      simp only [List.getElem?_cons_zero, Option.some.injEq] at h
      subst h
      rw [assign_labels_false]
      simp
    | succ i =>
      simp only [List.getElem?_cons_succ] at h
      cases m
      · rw [assign_labels_false]
        simpa using ih ls i h
      · cases ls with
        | nil =>
          rw [show assign_labels (true :: ms) [] = -1 :: assign_labels ms [] from rfl]
          simpa using ih [] i h
        | cons x ls =>
          rw [show assign_labels (true :: ms) (x :: ls)
              = x :: assign_labels ms ls from rfl]
          simpa using ih ls i h

/-- C10: the cluster labelling returns one label per input row, every label
is `-1` or lies in `[0, HABIT_AUDIO_CLUSTER_K)`, every row with an undefined
value in a present audio-feature column is labelled `-1`, and with fewer than
two present audio-feature columns every row is labelled `-1` — for any
clustering step obeying the `fit_predict` contract. -/
theorem cluster_audio_profiles_invariant (kmeansFit : List (List ℚ) → List Int)
    (df : Df)
    (hrange : ∀ X, ∀ l ∈ kmeansFit X, 0 ≤ l ∧ l < (HABIT_AUDIO_CLUSTER_K : Int))
    (_hlen : ∀ X, (kmeansFit X).length = X.length) :
    (cluster_audio_profiles kmeansFit df).length = df.rows.length ∧
    (∀ l ∈ cluster_audio_profiles kmeansFit df,
      l = -1 ∨ (0 ≤ l ∧ l < (HABIT_AUDIO_CLUSTER_K : Int))) ∧
    (∀ (i : Nat) (r : List (String × Option ℚ)), df.rows[i]? = some r →
      audio_row_complete (NUMERICAL_FEATURES_TO_CHECK.filter (fun f => f ∈ df.cols)) r
        = false →
      (cluster_audio_profiles kmeansFit df)[i]? = some (-1)) ∧
    ((NUMERICAL_FEATURES_TO_CHECK.filter (fun f => f ∈ df.cols)).length < 2 →
      ∀ l ∈ cluster_audio_profiles kmeansFit df, l = -1) := by
  by_cases h2 : (NUMERICAL_FEATURES_TO_CHECK.filter (fun f => f ∈ df.cols)).length < 2
  · have hout : cluster_audio_profiles kmeansFit df
        = List.replicate df.rows.length (-1) := by
      simp only [cluster_audio_profiles]
      rw [if_pos h2]
    refine ⟨by rw [hout, List.length_replicate], ?_, ?_, ?_⟩
    · intro l hl
      rw [hout] at hl
      exact Or.inl (List.eq_of_mem_replicate hl)
    · intro i r hr _
      rw [hout, List.getElem?_replicate,
        if_pos (List.getElem?_eq_some.mp hr).1]
    · intro _ l hl
      rw [hout] at hl
      exact List.eq_of_mem_replicate hl
  · by_cases h3 : ((df.rows.map
        (audio_row_complete (NUMERICAL_FEATURES_TO_CHECK.filter
          (fun f => f ∈ df.cols)))).count true) < HABIT_AUDIO_CLUSTER_K * 3
    · have hout : cluster_audio_profiles kmeansFit df
          = List.replicate df.rows.length (-1) := by
        simp only [cluster_audio_profiles]
        rw [if_neg h2, if_pos h3]
      refine ⟨by rw [hout, List.length_replicate], ?_, ?_, ?_⟩
      · intro l hl
        rw [hout] at hl
        exact Or.inl (List.eq_of_mem_replicate hl)
      · intro i r hr _
        rw [hout, List.getElem?_replicate,
          if_pos (List.getElem?_eq_some.mp hr).1]
      · intro h2' _ _
        exact absurd h2' h2
    · have hout : cluster_audio_profiles kmeansFit df
          = assign_labels
            (df.rows.map (audio_row_complete (NUMERICAL_FEATURES_TO_CHECK.filter
              (fun f => f ∈ df.cols))))
            (kmeansFit ((df.rows.filter (audio_row_complete
                (NUMERICAL_FEATURES_TO_CHECK.filter (fun f => f ∈ df.cols)))).map
              (fun r => (NUMERICAL_FEATURES_TO_CHECK.filter
                (fun f => f ∈ df.cols)).map (fun f => (cellOf r f).getD 0)))) := by
        simp only [cluster_audio_profiles]
        rw [if_neg h2, if_neg h3]
      refine ⟨?_, ?_, ?_, ?_⟩
      · rw [hout, assign_labels_length, List.length_map]
      · intro l hl
        rw [hout] at hl
        exact assign_labels_mem _ _ _ (hrange _) l hl
      · intro i r hr hfalse
        rw [hout]
        refine assign_labels_get_false _ _ i ?_
        rw [List.getElem?_map, hr]
        simp [hfalse]
      · intro h2' _ _
        exact absurd h2' h2

/-- C10 witness: the invariant at the degenerate clusterer and a concrete
frame whose first row has an undefined tempo. -/
theorem cluster_audio_profiles_invariant_witness :
    (cluster_audio_profiles kmeans0 dfW).length = dfW.rows.length ∧
    (cluster_audio_profiles kmeans0 dfW)[0]? = some (-1) := by
  have hk : ∀ X, ∀ l ∈ kmeans0 X, 0 ≤ l ∧ l < (HABIT_AUDIO_CLUSTER_K : Int) := by
    intro X l hl
    rcases List.mem_map.mp hl with ⟨x, -, rfl⟩
    refine ⟨le_refl 0, ?_⟩
    rw [HABIT_AUDIO_CLUSTER_K]
    norm_num
  have hl : ∀ X, (kmeans0 X).length = X.length := fun X => List.length_map ..
  have h := cluster_audio_profiles_invariant kmeans0 dfW hk hl
  refine ⟨h.1, ?_⟩
  refine h.2.2.1 0 ([("tempo", (none : Option ℚ)), ("energy", some 2)]) ?_ ?_
  · with_unfolding_all rfl
  · with_unfolding_all rfl

end BeyondShuffle
